import Mathlib

/-!
Verification of the GenAI Stack workflow builder.

Shallow embedding of the workflow data model, the graph validators, the
frontend chat executor (`src/components/ChatInterface.tsx`,
`src/pages/WorkflowEditor.tsx`), the document chunker and the reference
backend services (`DocumentProcessor.chunk_text`, `LLMService`,
`WorkflowEngine` from the implementation guide), together with theorems
settling the specification claims.

External providers (embedding, vector store, chat completion, web search)
are modelled as an explicit environment of fallible functions; every
provider invocation is recorded in a call log so that claims about which
providers run can be stated and proved.
-/

namespace GenAIStack

/-- Decidable equality on `Except`, needed to evaluate whole execution
results on concrete inputs. -/
instance {ε α : Type} [DecidableEq ε] [DecidableEq α] : DecidableEq (Except ε α)
  | Except.error e, Except.error f =>
    if h : e = f then isTrue (by rw [h]) else isFalse (fun he => h (by cases he; rfl))
  | Except.error _, Except.ok _ => isFalse (fun he => by cases he)
  | Except.ok _, Except.error _ => isFalse (fun he => by cases he)
  | Except.ok a, Except.ok b =>
    if h : a = b then isTrue (by rw [h]) else isFalse (fun he => h (by cases he; rfl))

/- ### String utilities modelling Python and JavaScript primitives -/

/-- Model of the Python string join `sep.join(words)`: the chunker joins each
chunk with single spaces, search and context assembly join with newlines. -/
def joinWith (sep : String) : List String → String
  | [] => ""
  | [w] => w
  | w :: ws => w ++ sep ++ joinWith sep ws

/-- Helper for `pySplit`: walks the character list, accumulating the current
word in reverse; whitespace finishes the current word (if any). -/
def pySplitAux : List Char → List Char → List String
  | [], acc => if acc = [] then [] else [⟨acc.reverse⟩]
  | c :: cs, acc =>
    if c.isWhitespace then
      (if acc = [] then [] else [⟨acc.reverse⟩]) ++ pySplitAux cs []
    else
      pySplitAux cs (c :: acc)

/-- Model of Python `text.split()`: split on runs of whitespace, discarding
empty pieces (so leading/trailing/multiple whitespace produce no empty
words). -/
def pySplit (text : String) : List String :=
  pySplitAux text.data []

/-- Helper for `jsReplaceFirst`: replace the first occurrence of `pat` in the
character list with `rep`; the rest of the string is kept unchanged. -/
def replaceFirstAux (pat rep : List Char) : List Char → List Char
  | [] => []
  | c :: cs =>
    if pat.isPrefixOf (c :: cs) then rep ++ (c :: cs).drop pat.length
    else c :: replaceFirstAux pat rep cs

/-- Model of JavaScript `String.prototype.replace` with a plain-string
pattern: only the FIRST occurrence is replaced; if the pattern does not
occur the string is returned unchanged.  (The frontend only ever calls it
with the non-empty patterns `"\x7bcontext\x7d"` and `"\x7bquery\x7d"`.) -/
def jsReplaceFirst (s pat rep : String) : String :=
  ⟨replaceFirstAux pat.data rep.data s.data⟩

/-- Helper for `pyReplace`: replace every non-overlapping occurrence of `pat`,
scanning left to right.  The `Nat` argument is the number of characters still
to be skipped after an accepted match (the matched characters are consumed,
not copied). -/
def replaceAllAux (pat rep : List Char) : List Char → Nat → List Char
  | [], _ => []
  | _ :: cs, k + 1 => replaceAllAux pat rep cs k
  | c :: cs, 0 =>
    if pat.isPrefixOf (c :: cs) then rep ++ replaceAllAux pat rep cs (pat.length - 1)
    else c :: replaceAllAux pat rep cs 0

/-- Model of Python `s.replace(old, new)` for a non-empty pattern: every
non-overlapping occurrence is replaced, scanning left to right.  (The
backend only ever calls it with the non-empty patterns `"\x7bcontext\x7d"`
and `"\x7bquery\x7d"`; for an empty pattern we return `s` unchanged.) -/
def pyReplace (s pat rep : String) : String :=
  match pat.data with
  | [] => s
  | _ :: _ => ⟨replaceAllAux pat.data rep.data s.data 0⟩

/- ### Chunker (`DocumentProcessor.chunk_text`, backend reference) -/

/-- The word groups built by the chunking loop: `current` is the group being
accumulated and `current_size` the running size `sum (len word + 1)`.  A
group is emitted as soon as the running size reaches `chunk_size`; the final
group is emitted only when non-empty. -/
def chunkGroups (chunk_size : Nat) : List String → List String → Nat → List (List String)
  | [], current, _ => if current.isEmpty then [] else [current]
  | w :: ws, current, current_size =>
    if chunk_size ≤ current_size + w.length + 1 then
      (current ++ [w]) :: chunkGroups chunk_size ws [] 0
    else chunkGroups chunk_size ws (current ++ [w]) (current_size + w.length + 1)

/-- The chunking loop of `DocumentProcessor.chunk_text`: emitted groups are
joined with single spaces, exactly as the source does with a space join. -/
def chunkGo (chunk_size : Nat) : List String → List String → Nat → List String
  | [], current, _ => if current.isEmpty then [] else [joinWith " " current]
  | w :: ws, current, current_size =>
    if chunk_size ≤ current_size + w.length + 1 then
      joinWith " " (current ++ [w]) :: chunkGo chunk_size ws [] 0
    else chunkGo chunk_size ws (current ++ [w]) (current_size + w.length + 1)

/-- `DocumentProcessor.chunk_text(text, chunk_size=1000)`: split the text into
whitespace-delimited words and greedily accumulate them into chunks; a chunk
is emitted once the running character length (word lengths plus one
separator each) reaches `chunk_size`, and the final partial chunk is emitted
whenever non-empty. -/
def chunk_text (text : String) (chunk_size : Nat) : List String :=
  chunkGo chunk_size (pySplit text) [] 0

/-- The running size the chunking loop maintains for a word group:
`sum (len word + 1)` over its words. -/
def sumLen (g : List String) : Nat :=
  (g.map (fun w => w.length + 1)).sum

/- ### Workflow data model (`src/types/workflow.ts`, `src/lib/supabase.ts`) -/

/-- An uploaded file reference in a knowledge-base configuration. -/
structure UploadedFile where
  id : String
  name : String
  size : Nat
deriving DecidableEq, Repr

/-- A node configuration: the source stores `config` as an untyped record
(`Record<string, any>` / Python `dict`), so every per-type field is optional
here; `Option.getD` models `config.get(key, default)` and absent keys. -/
structure Config where
  query : Option String := none
  embeddingModel : Option String := none
  apiKey : Option String := none
  uploadedFiles : Option (List UploadedFile) := none
  model : Option String := none
  prompt : Option String := none
  temperature : Option ℚ := none
  useWebSearch : Option Bool := none
  webSearchTool : Option String := none
  webSearchApiKey : Option String := none
  displayMode : Option String := none
deriving DecidableEq, Repr

/-- A workflow node: `type` is one of `"userQuery"`, `"knowledgeBase"`,
`"llmEngine"`, `"output"` (the source compares it as a string). -/
structure WNode where
  id : String
  type : String
  config : Config
deriving DecidableEq, Repr

/-- A workflow edge (only its existence ever matters to the code). -/
structure WEdge where
  id : String
  source : String
  target : String
deriving DecidableEq, Repr

/-- A workflow graph snapshot: nodes plus edges. -/
structure Workflow where
  nodes : List WNode
  edges : List WEdge
deriving DecidableEq, Repr

/- ### Graph validation -/

/-- `validateWorkflow()` from `src/pages/WorkflowEditor.tsx`: a bare boolean
from node-type presence and edge count; node configurations are never
inspected. -/
def validateWorkflow (nodes : List WNode) (edges : List WEdge) : Bool :=
  let hasUserQuery := nodes.any (fun n => n.type == "userQuery")
  let hasLLM := nodes.any (fun n => n.type == "llmEngine")
  let hasOutput := nodes.any (fun n => n.type == "output")
  hasUserQuery && hasLLM && hasOutput && decide (0 < edges.length)

/-- The `(valid, error)` record returned by the documented validator. -/
structure ValidationResult where
  valid : Bool
  error : Option String
deriving DecidableEq, Repr

/-- `validateWorkflow(nodes, edges)` from the architecture document
(ARCHITECTURE.md, "Validation Rules").  The per-node configuration check
`validateNodeConfig` is a free function there (it is not defined anywhere in
the repository), so it is taken as a parameter. -/
def validateWorkflow_doc (validateNodeConfig : WNode → Bool)
    (nodes : List WNode) (edges : List WEdge) : ValidationResult :=
  let hasUserQuery := nodes.any (fun n => n.type == "userQuery")
  let hasLLM := nodes.any (fun n => n.type == "llmEngine")
  let hasOutput := nodes.any (fun n => n.type == "output")
  if !hasUserQuery || !hasLLM || !hasOutput then
    { valid := false, error := some "Missing required components" }
  else if edges.length == 0 then
    { valid := false, error := some "No connections between components" }
  else
    match nodes.find? (fun n => !validateNodeConfig n) with
    | some n => { valid := false, error := some ("Invalid config for " ++ n.id) }
    | none => { valid := true, error := none }

/- ### Frontend chat executor (`src/components/ChatInterface.tsx`) -/

/-- JavaScript `a || b` on an optional string field: `undefined` and the
empty string are both falsy and fall through to the default. -/
def jsOr (o : Option String) (d : String) : String :=
  match o with
  | some s => if s = "" then d else s
  | none => d

/-- Rendering of a possibly-absent string field inside a JS template literal
(`undefined` prints as `"undefined"`). -/
def jsShowStr (o : Option String) : String :=
  o.getD "undefined"

/-- Rendering of a possibly-absent numeric field inside a JS template
literal. -/
def jsShowRat (o : Option ℚ) : String :=
  match o with
  | some q => toString q
  | none => "undefined"

/-- JavaScript truthiness of a possibly-absent boolean field. -/
def jsTruthyB (o : Option Bool) : Bool :=
  o.getD false

/-- The context string the frontend builds from the knowledge-base node:
non-empty exactly when the node exists and has at least one uploaded file. -/
def frontendContext (kb : Option WNode) : String :=
  match kb with
  | some node =>
    match node.config.uploadedFiles with
    | some files =>
      if 0 < files.length then
        "[Context from " ++ toString files.length ++ " document(s)]"
      else ""
    | none => ""
  | none => ""

/-- Prompt construction in `ChatInterface.executeWorkflow`: the template (or
the default) has `"\x7bcontext\x7d"` replaced ONLY when the context string is
non-empty (JS truthiness guard `if (context)`), and `"\x7bquery\x7d"` replaced
unconditionally; JS `replace` only touches the first occurrence. -/
def frontendPrompt (cfgPrompt : Option String) (context query : String) : String :=
  let prompt0 := jsOr cfgPrompt "You are a helpful assistant."
  let prompt1 := if context = "" then prompt0 else jsReplaceFirst prompt0 "{context}" context
  jsReplaceFirst prompt1 "{query}" query

/-- The simulated response template literal returned by the frontend
executor. -/
def simulatedResponse (query : String) (cfg : Config) (context : String) : String :=
  "This is a simulated response to: \"" ++ query ++
  "\"\n\nTo enable real LLM responses, you would need to:\n1. Set up a backend API endpoint\n2. Configure your OpenAI API key\n3. Connect the workflow execution to the backend\n\nWorkflow configuration:\n- Model: " ++
  jsShowStr cfg.model ++
  "\n- Temperature: " ++ jsShowRat cfg.temperature ++
  "\n- Web Search: " ++ (if jsTruthyB cfg.useWebSearch then "Enabled" else "Disabled") ++
  "\n" ++ (if context = "" then "" else "- Using context from knowledge base")

/-- `executeWorkflow(query)` from `src/components/ChatInterface.tsx`: finds
nodes by type, throws when no LLM-engine node exists, derives the context
from the knowledge-base node, builds (and discards) the prompt, and returns
the simulated response.  No provider is ever called. -/
def executeWorkflow (workflow : Workflow) (query : String) : Except String String :=
  let _userQueryNode := workflow.nodes.find? (fun n => n.type == "userQuery")
  let knowledgeBaseNode := workflow.nodes.find? (fun n => n.type == "knowledgeBase")
  let llmNode := workflow.nodes.find? (fun n => n.type == "llmEngine")
  let _outputNode := workflow.nodes.find? (fun n => n.type == "output")
  match llmNode with
  | none => Except.error "LLM Engine component is required"
  | some llm =>
    let context := frontendContext knowledgeBaseNode
    let _prompt := frontendPrompt llm.config.prompt context query
    Except.ok (simulatedResponse query llm.config context)

/-- A database write, one constructor per table of the Supabase schema the
frontend can address (`chat_messages`, `execution_logs`, `stacks`). -/
inductive DBWrite where
  | chatMessage (role : String) (content : String) (isError : Bool)
  | executionLog (component : String) (status : String)
  | stackUpdate (stackId : String)
deriving DecidableEq, Repr

/-- Recognizes a write to the `execution_logs` table. -/
def isExecutionLogWrite : DBWrite → Bool
  | DBWrite.executionLog _ _ => true
  | _ => false

/-- The sequence of database writes `sendMessage()` in
`src/components/ChatInterface.tsx` performs: nothing for blank input,
otherwise the user message followed by either the assistant response or the
fixed error message (database inserts themselves are assumed to succeed). -/
def sendMessage (workflow : Workflow) (input : String) : List DBWrite :=
  if input.trim = "" then []
  else
    let userMsg := DBWrite.chatMessage "user" input.trim false
    match executeWorkflow workflow input.trim with
    | Except.ok response => [userMsg, DBWrite.chatMessage "assistant" response false]
    | Except.error _ =>
      [userMsg, DBWrite.chatMessage "assistant"
        "Sorry, there was an error processing your request. Please check your API keys and configuration." true]

/- ### Backend reference services (`LLMService`, `WorkflowEngine`) -/

/-- Which external provider a call went to. -/
inductive PCall where
  | embed
  | vectorQuery
  | chat
  | webSearch
deriving DecidableEq, Repr

/-- One organic result of the SerpAPI response (a missing `snippet` key
defaults to the empty string). -/
structure SearchItem where
  snippet : Option String
deriving DecidableEq, Repr

/-- The parsed SerpAPI response body (a missing `organic_results` key
defaults to the empty list, so the field is modelled as a plain list). -/
structure SearchResponse where
  organic_results : List SearchItem
deriving DecidableEq, Repr

/-- The external providers, as fallible functions.  `Except.error` models a
raised exception of the underlying client library. -/
structure Env where
  /-- `EmbeddingService.generate_embeddings([query])[0]` for a single query. -/
  embed : String → Except String (List Int)
  /-- `VectorStore.query(collection_name, query_embedding, n_results)`;
  the result is the `documents` field (a list of document lists, one per
  query embedding). -/
  vquery : String → List Int → Nat → Except String (List (List String))
  /-- `client.chat.completions.create(model, messages, temperature)` down to
  the returned message content; messages are `(role, content)` pairs. -/
  chatCompletion : String → List (String × String) → ℚ → Except String String
  /-- The raw SerpAPI HTTP request of `perform_web_search`. -/
  httpSearch : String → Option String → Except String SearchResponse

/-- `LLMService.perform_web_search(query, api_key)`: fetch the SerpAPI
response, take the snippets of at most the first three organic results, and
join them with newlines.  A raised request error propagates. -/
def perform_web_search (env : Env) (query : String) (api_key : Option String) :
    Except String String × List PCall :=
  match env.httpSearch query api_key with
  | Except.error e => (Except.error e, [PCall.webSearch])
  | Except.ok results =>
    (Except.ok (joinWith "\n"
      ((results.organic_results.take 3).map (fun r => r.snippet.getD ""))),
     [PCall.webSearch])

/-- The system prompt `LLMService.generate_response` builds: the configured
template (default `"You are a helpful assistant."`) with every occurrence of
`"\x7bcontext\x7d"` replaced by the context and every occurrence of
`"\x7bquery\x7d"` replaced by the query (Python `str.replace`). -/
def backendSystemPrompt (cfgPrompt : Option String) (context query : String) : String :=
  pyReplace (pyReplace (cfgPrompt.getD "You are a helpful assistant.") "{context}" context)
    "{query}" query

/-- `LLMService.generate_response(query, context, config)`: build the system
prompt, optionally perform (and append) the web search, then call the chat
completion with the system prompt and the raw query as user message.  A web
search error propagates and no chat call is made. -/
def generate_response (env : Env) (query context : String) (config : Config) :
    Except String String × List PCall :=
  let prompt := backendSystemPrompt config.prompt context query
  if config.useWebSearch.getD false then
    match perform_web_search env query config.webSearchApiKey with
    | (Except.error e, calls) => (Except.error e, calls)
    | (Except.ok search_results, calls) =>
      (env.chatCompletion (config.model.getD "gpt-4o-mini")
        [("system", prompt ++ "\n\nWeb Search Results:\n" ++ search_results),
         ("user", query)]
        (config.temperature.getD 0.7),
       calls ++ [PCall.chat])
  else
    (env.chatCompletion (config.model.getD "gpt-4o-mini")
      [("system", prompt), ("user", query)]
      (config.temperature.getD 0.7),
     [PCall.chat])

/-- `WorkflowEngine._find_node_by_type(nodes, node_type)`: first node with
the given type, if any. -/
def find_node_by_type (nodes : List WNode) (node_type : String) : Option WNode :=
  nodes.find? (fun n => n.type == node_type)

/-- `WorkflowEngine._retrieve_context(stack_id, query)`: embed the query,
query the vector store of collection `"stack_" ++ stack_id` with `topK = 3`,
and join the first document list with newlines (empty string when there are
no documents).  Provider errors propagate. -/
def retrieve_context (env : Env) (stack_id query : String) :
    Except String String × List PCall :=
  match env.embed query with
  | Except.error e => (Except.error e, [PCall.embed])
  | Except.ok query_embedding =>
    match env.vquery ("stack_" ++ stack_id) query_embedding 3 with
    | Except.error e => (Except.error e, [PCall.embed, PCall.vectorQuery])
    | Except.ok documents =>
      match documents with
      | [] => (Except.ok "", [PCall.embed, PCall.vectorQuery])
      | d :: _ => (Except.ok (joinWith "\n" d), [PCall.embed, PCall.vectorQuery])

/-- Execution metadata: `context_used` is Python `bool(context)`
(the spec calls this field `contextRetrieved`). -/
structure ExecMetadata where
  context_used : Bool
deriving DecidableEq, Repr

/-- The value `WorkflowEngine.execute` returns: only a response and the
metadata record (no execution logs are part of the result). -/
structure ExecResult where
  response : String
  metadata : ExecMetadata
deriving DecidableEq, Repr

/-- `WorkflowEngine.execute(workflow_data, query, stack_id)`: resolve the
knowledge-base and LLM nodes by type scan (no validation happens here),
retrieve context when a knowledge-base node exists (errors propagate), then
generate the response (raising `"LLM node not found"` when no LLM node
exists). -/
def WorkflowEngine.execute (env : Env) (workflow_data : Workflow)
    (query stack_id : String) : Except String ExecResult × List PCall :=
  let nodes := workflow_data.nodes
  let kb_node := find_node_by_type nodes "knowledgeBase"
  let llm_node := find_node_by_type nodes "llmEngine"
  let ctxStep : Except String String × List PCall :=
    match kb_node with
    | some _ => retrieve_context env stack_id query
    | none => (Except.ok "", [])
  match ctxStep with
  | (Except.error e, calls) => (Except.error e, calls)
  | (Except.ok context, calls) =>
    match llm_node with
    | none => (Except.error "LLM node not found", calls)
    | some llm =>
      match generate_response env query context llm.config with
      | (Except.error e, calls') => (Except.error e, calls ++ calls')
      | (Except.ok response, calls') =>
        (Except.ok
          { response := response,
            metadata := { context_used := decide (context ≠ "") } },
         calls ++ calls')

/- ### Concrete fixtures used by counterexamples and witnesses -/

/-- An environment whose providers all succeed. -/
def envOk : Env where
  embed := fun _ => Except.ok [1, 2, 3]
  vquery := fun _ _ _ => Except.ok [["the answer is 4"]]
  chatCompletion := fun _ _ _ => Except.ok "the answer"
  httpSearch := fun _ _ => Except.ok { organic_results := [] }

/-- An environment whose embedding provider fails. -/
def envEmbedFail : Env where
  embed := fun _ => Except.error "embedding failed"
  vquery := fun _ _ _ => Except.ok [["the answer is 4"]]
  chatCompletion := fun _ _ _ => Except.ok "the answer"
  httpSearch := fun _ _ => Except.ok { organic_results := [] }

/-- An environment whose vector store fails. -/
def envVectorFail : Env where
  embed := fun _ => Except.ok [1, 2, 3]
  vquery := fun _ _ _ => Except.error "vector store down"
  chatCompletion := fun _ _ _ => Except.ok "the answer"
  httpSearch := fun _ _ => Except.ok { organic_results := [] }

/-- An environment whose web-search HTTP request fails. -/
def envSearchFail : Env where
  embed := fun _ => Except.ok [1, 2, 3]
  vquery := fun _ _ _ => Except.ok [["the answer is 4"]]
  chatCompletion := fun _ _ _ => Except.ok "the answer"
  httpSearch := fun _ _ => Except.error "network error"

/-- A user-query node with its default configuration. -/
def userQueryNode : WNode :=
  { id := "uq-1", type := "userQuery", config := { query := some "" } }

/-- An output node with its default configuration. -/
def outputNode : WNode :=
  { id := "out-1", type := "output", config := { displayMode := some "text" } }

/-- A knowledge-base node with no uploaded files. -/
def kbNode : WNode :=
  { id := "kb-1", type := "knowledgeBase",
    config := { embeddingModel := some "text-embedding-3-large",
                apiKey := some "", uploadedFiles := some [] } }

/-- An LLM-engine node with web search disabled and an EMPTY api key. -/
def llmNodeNoWS : WNode :=
  { id := "llm-1", type := "llmEngine",
    config := { model := some "gpt-4o-mini", apiKey := some "",
                prompt := some "Use {context} to answer {query}",
                temperature := some 0.75, useWebSearch := some false,
                webSearchTool := some "serpapi", webSearchApiKey := some "" } }

/-- A graph containing only an LLM-engine node (no user query, no output). -/
def gLLMOnly : Workflow :=
  { nodes := [llmNodeNoWS], edges := [] }

/-- A graph with a knowledge-base node and an LLM-engine node. -/
def gKB : Workflow :=
  { nodes := [kbNode, llmNodeNoWS], edges := [] }

/-- A structurally complete graph (user query, LLM engine, output, one edge)
whose LLM engine has an empty `apiKey`. -/
def gC2 : Workflow :=
  { nodes := [userQueryNode, llmNodeNoWS, outputNode],
    edges := [{ id := "e1", source := "uq-1", target := "llm-1" }] }

/-- A graph with no LLM-engine node at all. -/
def gNoLLM : Workflow :=
  { nodes := [userQueryNode, outputNode], edges := [] }

/-- An LLM configuration with web search enabled, for the web-search
fixtures. -/
def cfgWS : Config :=
  { model := some "gpt-4o-mini", apiKey := some "sk-test",
    prompt := some "You are a helpful assistant.",
    temperature := some 0.7, useWebSearch := some true,
    webSearchApiKey := some "serp-key" }

/-- An LLM configuration with web search disabled, for the prompt-building
witness. -/
def llmCfgC5 : Config :=
  { model := some "gpt-4o-mini", apiKey := some "sk-test",
    prompt := some "Use {context} to answer {query}",
    temperature := some 0.7, useWebSearch := some false }

/- ### Lemmas on strings and joins -/

/-- A string built from a non-empty character list is not the empty string. -/
theorem strMk_ne_empty {l : List Char} (h : l ≠ []) : (⟨l⟩ : String) ≠ "" := by
  intro he
  apply h
  have hd : (⟨l⟩ : String).data = ("" : String).data := by rw [he]
  simpa using hd

/-- A non-empty string has positive length. -/
theorem str_length_pos {s : String} (h : s ≠ "") : 0 < s.length := by
  cases s with
  | mk data =>
    cases data with
    | nil => exact absurd rfl h
    | cons c cs => simp [String.length]

/-- `joinWith` on a two-or-more element list peels off the head. -/
theorem joinWith_cons₂ (sep w x : String) (xs : List String) :
    joinWith sep (w :: x :: xs) = w ++ sep ++ joinWith sep (x :: xs) := rfl

/-- Joining a concatenation of two non-empty lists inserts one separator
between the two joined halves. -/
theorem joinWith_append (sep : String) :
    ∀ {a b : List String}, a ≠ [] → b ≠ [] →
      joinWith sep (a ++ b) = joinWith sep a ++ sep ++ joinWith sep b
  | [], _, ha, _ => absurd rfl ha
  | [x], y :: ys, _, _ => rfl
  | x :: x' :: a', b, _, hb => by
    have ih := joinWith_append sep (a := x' :: a') (b := b) (by simp) hb
    show joinWith sep (x :: ((x' :: a') ++ b)) = _
    have hcons : (x' :: a') ++ b = x' :: (a' ++ b) := rfl
    rw [hcons] at ih ⊢
    rw [show joinWith sep (x :: x' :: (a' ++ b)) = x ++ sep ++ joinWith sep (x' :: (a' ++ b)) from rfl]
    rw [ih, joinWith_cons₂]
    simp [String.append_assoc]

/-- Joining already-joined groups equals joining the flattened word list,
provided every group is non-empty. -/
theorem joinWith_map_flatten (sep : String) :
    ∀ (gs : List (List String)), (∀ g ∈ gs, g ≠ []) →
      joinWith sep (gs.map (joinWith sep)) = joinWith sep gs.flatten
  | [], _ => rfl
  | [g], _ => by simp [joinWith]
  | g :: g' :: gs, h => by
    have hg : g ≠ [] := h g (by simp)
    have hg' : g' ≠ [] := h g' (by simp)
    have hrest : (g' :: gs).flatten ≠ [] := by
      simp only [List.flatten_cons]
      intro hx
      exact hg' (List.append_eq_nil.mp hx).1
    have ih := joinWith_map_flatten sep (g' :: gs) (fun x hx => h x (by simp [hx]))
    calc joinWith sep ((g :: g' :: gs).map (joinWith sep))
        = joinWith sep g ++ sep ++ joinWith sep ((g' :: gs).map (joinWith sep)) := by
          simp [joinWith]
      _ = joinWith sep g ++ sep ++ joinWith sep (g' :: gs).flatten := by rw [ih]
      _ = joinWith sep (g ++ (g' :: gs).flatten) := (joinWith_append sep hg hrest).symm
      _ = joinWith sep (g :: g' :: gs).flatten := by simp [List.flatten_cons]

/-- `sumLen` of a cons. -/
theorem sumLen_cons (w : String) (l : List String) :
    sumLen (w :: l) = w.length + 1 + sumLen l := by
  simp [sumLen]

/-- `sumLen` of an append. -/
theorem sumLen_append (a b : List String) :
    sumLen (a ++ b) = sumLen a + sumLen b := by
  simp [sumLen]

/-- Dropping the last word cannot increase the running size. -/
theorem sumLen_dropLast_le : ∀ l : List String, sumLen l.dropLast ≤ sumLen l
  | [] => le_refl _
  | [w] => by simp [sumLen]
  | w :: x :: xs => by
    have ih := sumLen_dropLast_le (x :: xs)
    have hd : (w :: x :: xs).dropLast = w :: (x :: xs).dropLast := rfl
    rw [hd, sumLen_cons, sumLen_cons]
    omega

/-- The length of a space-join, plus one, is the running size of the group. -/
theorem length_joinWith_space :
    ∀ {g : List String}, g ≠ [] → (joinWith " " g).length + 1 = sumLen g
  | [], h => absurd rfl h
  | [w], _ => by simp [joinWith, sumLen]
  | w :: x :: xs, _ => by
    have ih := length_joinWith_space (g := x :: xs) (by simp)
    have hsp : (" " : String).length = 1 := rfl
    rw [joinWith_cons₂, sumLen_cons, String.length_append, String.length_append, hsp]
    omega

/-- Every word produced by `pySplitAux` is non-empty. -/
theorem pySplitAux_ne_empty :
    ∀ (l acc : List Char) (w : String), w ∈ pySplitAux l acc → w ≠ ""
  | [], acc, w => by
    by_cases h : acc = []
    · simp [pySplitAux, h]
    · intro hw
      simp [pySplitAux, h] at hw
      subst hw
      exact strMk_ne_empty (by simp [h])
  | c :: cs, acc, w => by
    intro hw
    by_cases h : c.isWhitespace
    · simp only [pySplitAux, h, if_true] at hw
      rcases List.mem_append.mp hw with hleft | hright
      · by_cases hacc : acc = []
        · simp [hacc] at hleft
        · simp [hacc] at hleft
          subst hleft
          exact strMk_ne_empty (by simp [hacc])
      · exact pySplitAux_ne_empty cs [] w hright
    · simp only [pySplitAux, h, if_false] at hw
      exact pySplitAux_ne_empty cs (c :: acc) w hw

/-- Every word produced by `pySplit` is non-empty. -/
theorem pySplit_ne_empty (t : String) (w : String) (hw : w ∈ pySplit t) : w ≠ "" :=
  pySplitAux_ne_empty t.data [] w hw

/- ### Lemmas on the chunking loop -/

/-- The string-level loop is the group-level loop followed by space-joins. -/
theorem chunkGo_eq_map (n : Nat) :
    ∀ (ws cur : List String) (sz : Nat),
      chunkGo n ws cur sz = (chunkGroups n ws cur sz).map (joinWith " ")
  | [], cur, sz => by
    by_cases h : cur.isEmpty <;> simp [chunkGo, chunkGroups, h]
  | w :: ws, cur, sz => by
    by_cases h : n ≤ sz + w.length + 1 <;>
      simp [chunkGo, chunkGroups, h, chunkGo_eq_map n ws [] 0,
        chunkGo_eq_map n ws (cur ++ [w]) (sz + w.length + 1)]

/-- No word is lost or duplicated: the groups flatten back to the input
words, prefixed by the accumulator. -/
theorem chunkGroups_flatten (n : Nat) :
    ∀ (ws cur : List String) (sz : Nat),
      (chunkGroups n ws cur sz).flatten = cur ++ ws
  | [], cur, sz => by
    by_cases h : cur.isEmpty
    · simp [chunkGroups, h, List.isEmpty_iff.mp h]
    · simp [chunkGroups, h]
  | w :: ws, cur, sz => by
    by_cases h : n ≤ sz + w.length + 1
    · simp [chunkGroups, h, chunkGroups_flatten n ws [] 0]
    · simp [chunkGroups, h, chunkGroups_flatten n ws (cur ++ [w]) (sz + w.length + 1)]

/-- Every emitted group is non-empty. -/
theorem chunkGroups_ne_nil (n : Nat) :
    ∀ (ws cur : List String) (sz : Nat) (g : List String),
      g ∈ chunkGroups n ws cur sz → g ≠ []
  | [], cur, sz, g => by
    by_cases h : cur.isEmpty
    · simp [chunkGroups, h]
    · intro hg
      simp [chunkGroups, h] at hg
      subst hg
      simpa [List.isEmpty_iff] using h
  | w :: ws, cur, sz, g => by
    intro hg
    by_cases h : n ≤ sz + w.length + 1
    · simp only [chunkGroups, h, if_true, List.mem_cons] at hg
      rcases hg with hg | hg
      · subst hg; simp
      · exact chunkGroups_ne_nil n ws [] 0 g hg
    · simp only [chunkGroups, h, if_false] at hg
      exact chunkGroups_ne_nil n ws (cur ++ [w]) (sz + w.length + 1) g hg

/-- Every group except possibly the last has running size at least the
threshold (provided the tracked size matches the accumulator). -/
theorem chunkGroups_dropLast_size (n : Nat) :
    ∀ (ws cur : List String) (sz : Nat), sz = sumLen cur →
      ∀ g ∈ (chunkGroups n ws cur sz).dropLast, n ≤ sumLen g
  | [], cur, sz => by
    intro _ g hg
    by_cases h : cur.isEmpty <;> simp [chunkGroups, h] at hg
  | w :: ws, cur, sz => by
    intro hsz g hg
    by_cases h : n ≤ sz + w.length + 1
    · simp only [chunkGroups, h, if_true] at hg
      rcases hrest : chunkGroups n ws [] 0 with _ | ⟨r, rs⟩
      · rw [hrest] at hg
        simp at hg
      · rw [hrest] at hg
        have hd : ((cur ++ [w]) :: r :: rs).dropLast = (cur ++ [w]) :: (r :: rs).dropLast := rfl
        rw [hd, List.mem_cons] at hg
        rcases hg with hg | hg
        · subst hg
          rw [sumLen_append, ← hsz]
          simp [sumLen]
          omega
        · have := chunkGroups_dropLast_size n ws [] 0 rfl g
          rw [hrest] at this
          exact this hg
    · simp only [chunkGroups, h, if_false] at hg
      refine chunkGroups_dropLast_size n ws (cur ++ [w]) (sz + w.length + 1) ?_ g hg
      rw [sumLen_append, ← hsz]
      simp [sumLen]
      omega

/-- Greedy minimality: as long as the accumulator is still below the
threshold, every emitted group minus its last word is below the
threshold — a group is emitted exactly when the size first reaches it. -/
theorem chunkGroups_greedy (n : Nat) :
    ∀ (ws cur : List String) (sz : Nat), sz = sumLen cur → sz < n →
      ∀ g ∈ chunkGroups n ws cur sz, sumLen g.dropLast < n
  | [], cur, sz => by
    intro hsz hlt g hg
    by_cases h : cur.isEmpty
    · simp [chunkGroups, h] at hg
    · simp [chunkGroups, h] at hg
      subst hg
      calc sumLen g.dropLast ≤ sumLen g := sumLen_dropLast_le g
        _ = sz := hsz.symm
        _ < n := hlt
  | w :: ws, cur, sz => by
    intro hsz hlt g hg
    by_cases h : n ≤ sz + w.length + 1
    · simp only [chunkGroups, h, if_true, List.mem_cons] at hg
      rcases hg with hg | hg
      · subst hg
        rw [List.dropLast_concat, ← hsz]
        exact hlt
      · exact chunkGroups_greedy n ws [] 0 rfl (by omega) g hg
    · simp only [chunkGroups, h, if_false] at hg
      refine chunkGroups_greedy n ws (cur ++ [w]) (sz + w.length + 1) ?_ (by omega) g hg
      rw [sumLen_append, ← hsz]
      simp [sumLen]
      omega

/- ### Claim C3 -/

/-- C3: `chunk_text` is deterministic — identical `(text, chunkSize)` inputs
yield the identical ordered chunk sequence; joining all returned chunks with
single spaces reproduces the whitespace-normalized input (the single-space
join of its whitespace-split words); and the empty input produces zero
chunks. -/
theorem chunk_text_deterministic_join_empty :
    (∀ (t₁ t₂ : String) (n₁ n₂ : Nat), t₁ = t₂ → n₁ = n₂ →
      chunk_text t₁ n₁ = chunk_text t₂ n₂)
  ∧ (∀ (t : String) (n : Nat),
      joinWith " " (chunk_text t n) = joinWith " " (pySplit t))
  ∧ (∀ n : Nat, chunk_text "" n = []) := by
  refine ⟨fun t₁ t₂ n₁ n₂ ht hn => by rw [ht, hn], fun t n => ?_, fun n => rfl⟩
  rw [chunk_text, chunkGo_eq_map,
    joinWith_map_flatten " " _ (fun g hg => chunkGroups_ne_nil n _ _ _ g hg),
    chunkGroups_flatten]
  simp

/-- C3 witness: the determinism and join properties evaluated at concrete
inputs. -/
theorem chunk_text_deterministic_join_empty_witness :
    chunk_text "aa bb cc" 5 = chunk_text "aa bb cc" 5
  ∧ joinWith " " (chunk_text "aa  bb cc" 5) = joinWith " " (pySplit "aa  bb cc") :=
  ⟨chunk_text_deterministic_join_empty.1 "aa bb cc" "aa bb cc" 5 5 rfl rfl,
   chunk_text_deterministic_join_empty.2.1 "aa  bb cc" 5⟩

/- ### Claim C4 -/

/-- C4: `chunk_text` follows the greedy accumulation rule: (1) every emitted
chunk except possibly the last has accumulated character length — chunk
length plus the trailing separator — at least the chunk size; (2) every
emitted chunk is non-empty (the final partial chunk is emitted exactly when
non-empty); (3) the chunks are the space-joins of the word groups of the loop;
(4) greedy minimality — each group minus its last word is still below the
threshold, i.e. a chunk is emitted exactly when the running size first
reaches the threshold. -/
theorem chunk_text_greedy_accumulation :
    (∀ (t : String) (n : Nat) (c : String),
      c ∈ (chunk_text t n).dropLast → n ≤ c.length + 1)
  ∧ (∀ (t : String) (n : Nat) (c : String), c ∈ chunk_text t n → c ≠ "")
  ∧ (∀ (t : String) (n : Nat),
      chunk_text t n = (chunkGroups n (pySplit t) [] 0).map (joinWith " "))
  ∧ (∀ (t : String) (n : Nat) (g : List String), 1 ≤ n →
      g ∈ chunkGroups n (pySplit t) [] 0 → sumLen g.dropLast < n) := by
  refine ⟨?_, ?_, fun t n => chunkGo_eq_map n (pySplit t) [] 0,
    fun t n g h1 hg => chunkGroups_greedy n (pySplit t) [] 0 rfl (by omega) g hg⟩
  · intro t n c hc
    rw [chunk_text, chunkGo_eq_map] at hc
    rw [← List.map_dropLast] at hc
    rcases List.mem_map.mp hc with ⟨g, hg, hgc⟩
    have hgmem : g ∈ chunkGroups n (pySplit t) [] 0 := List.dropLast_subset _ hg
    have hne : g ≠ [] := chunkGroups_ne_nil n _ _ _ g hgmem
    have hsize : n ≤ sumLen g := chunkGroups_dropLast_size n (pySplit t) [] 0 rfl g hg
    rw [← hgc]
    rw [length_joinWith_space hne]
    exact hsize
  · intro t n c hc
    rw [chunk_text, chunkGo_eq_map] at hc
    rcases List.mem_map.mp hc with ⟨g, hg, hgc⟩
    have hne : g ≠ [] := chunkGroups_ne_nil n _ _ _ g hg
    rcases g with _ | ⟨w, rest⟩
    · exact absurd rfl hne
    · have hwmem : w ∈ (chunkGroups n (pySplit t) [] 0).flatten :=
        List.mem_flatten.mpr ⟨w :: rest, hg, by simp⟩
      rw [chunkGroups_flatten] at hwmem
      have hwne : w ≠ "" := pySplit_ne_empty t w (by simpa using hwmem)
      have hwpos : 0 < w.length := str_length_pos hwne
      have hlen : (joinWith " " (w :: rest)).length + 1 = sumLen (w :: rest) :=
        length_joinWith_space hne
      have hsum : w.length + 1 ≤ sumLen (w :: rest) := by
        rw [sumLen_cons]; omega
      intro hceq
      rw [← hgc] at hceq
      have : (joinWith " " (w :: rest)).length = 0 := by rw [hceq]; rfl
      omega

/-- C4 witness: the greedy properties evaluated at `"aa bb cc"` with chunk
size 5 (chunks `["aa bb", "cc"]`, groups `[["aa", "bb"], ["cc"]]`). -/
theorem chunk_text_greedy_accumulation_witness :
    (5 ≤ "aa bb".length + 1)
  ∧ ("aa bb" : String) ≠ ""
  ∧ chunk_text "aa bb cc" 5 = (chunkGroups 5 (pySplit "aa bb cc") [] 0).map (joinWith " ")
  ∧ sumLen (["aa", "bb"].dropLast) < 5 :=
  ⟨chunk_text_greedy_accumulation.1 "aa bb cc" 5 "aa bb" (by decide),
   chunk_text_greedy_accumulation.2.1 "aa bb cc" 5 "aa bb" (by decide),
   chunk_text_greedy_accumulation.2.2.1 "aa bb cc" 5,
   chunk_text_greedy_accumulation.2.2.2 "aa bb cc" 5 ["aa", "bb"] (by decide) (by decide)⟩

/- ### Lemmas on the executors -/

/-- `generate_response` never calls the embedding provider or the vector
store: its call log only ever contains web-search and chat calls. -/
theorem generate_response_no_retrieval (env : Env) (q c : String) (cfg : Config) :
    PCall.embed ∉ (generate_response env q c cfg).2
  ∧ PCall.vectorQuery ∉ (generate_response env q c cfg).2 := by
  unfold generate_response
  by_cases h : cfg.useWebSearch.getD false
  · simp only [h, if_true]
    unfold perform_web_search
    cases henv : env.httpSearch q cfg.webSearchApiKey <;> simp
  · simp [h]

/-- The simulated frontend response is never the empty string. -/
theorem simulatedResponse_ne_empty (q : String) (cfg : Config) (ctx : String) :
    simulatedResponse q cfg ctx ≠ "" := by
  intro h
  have hlen := congrArg String.length h
  have h0 : String.length "This is a simulated response to: \"" = 34 := by decide
  have h1 : String.length "" = 0 := rfl
  simp only [simulatedResponse, String.length_append, h1] at hlen
  rw [h0] at hlen
  omega

/- ### Claim C1 -/

/-- C1 (amended): for every graph missing a `userQuery`, `llmEngine`, or
`output` node, the editor function `validateWorkflow` returns `false` and the
documented validator returns `valid = false` with the non-empty error
message `"Missing required components"` — regardless of the (undefined)
per-node configuration check.  (Execution, however, is NOT guarded by
validation; see the counterexample.) -/
theorem validate_missing_required_nodes :
    ∀ (vnc : WNode → Bool) (nodes : List WNode) (edges : List WEdge),
      (nodes.any (fun n => n.type == "userQuery") = false ∨
       nodes.any (fun n => n.type == "llmEngine") = false ∨
       nodes.any (fun n => n.type == "output") = false) →
      validateWorkflow nodes edges = false
    ∧ validateWorkflow_doc vnc nodes edges =
        { valid := false, error := some "Missing required components" } := by
  intro vnc nodes edges h
  rcases h with h | h | h <;> simp [validateWorkflow, validateWorkflow_doc, h]

/-- C1 counterexample: the graph containing only an LLM-engine node (missing
`userQuery` and `output`) is invalid, yet the backend engine executing it
still makes a language-model provider call — the claim that execution of an
invalid graph makes no provider call is false. -/
theorem validate_missing_required_nodes_counterexample :
    validateWorkflow gLLMOnly.nodes gLLMOnly.edges = false
  ∧ PCall.chat ∈ (WorkflowEngine.execute envOk gLLMOnly "q" "s1").2 := by
  constructor
  · decide
  · decide

/-- C1 witness: the amended claim evaluated at the LLM-only graph. -/
theorem validate_missing_required_nodes_witness :
    validateWorkflow [llmNodeNoWS] [] = false
  ∧ validateWorkflow_doc (fun _ => true) [llmNodeNoWS] [] =
      { valid := false, error := some "Missing required components" } :=
  validate_missing_required_nodes (fun _ => true) [llmNodeNoWS] [] (Or.inl (by decide))

/- ### Claim C2 -/

/-- C2: the editor function `validateWorkflow` never inspects node
configurations — replacing the configuration of every node leaves its
verdict unchanged — and the
structurally complete graph `gC2`, whose LLM-engine node carries an EMPTY
`apiKey`, is nonetheless reported valid.  This contradicts the claim (and the
own architecture documentation of the repository) that configuration completeness
is validated. -/
theorem validateWorkflow_ignores_config :
    (∀ (nodes : List WNode) (edges : List WEdge) (f : WNode → Config),
      validateWorkflow (nodes.map (fun n => { n with config := f n })) edges =
        validateWorkflow nodes edges)
  ∧ validateWorkflow gC2.nodes gC2.edges = true
  ∧ (find_node_by_type gC2.nodes "llmEngine").map (fun n => n.config.apiKey) =
      some (some "") := by
  refine ⟨?_, by decide, by decide⟩
  intro nodes edges f
  have hmap : ∀ t : String,
      (nodes.map (fun n => { n with config := f n })).any (fun n => n.type == t) =
        nodes.any (fun n => n.type == t) := by
    intro t
    rw [List.any_map]
    rfl
  simp only [validateWorkflow, hmap]

/- ### Claim C5 -/

/-- C5 (amended): the backend provider substitutes both tokens
unconditionally — including the empty context — and passes the substituted
text as the system message with the raw query as the user message; the
frontend executor, by contrast, substitutes the context token only when the
context is non-empty (and builds no messages at all). -/
theorem prompt_substitution :
    (∀ (env : Env) (q c : String) (cfg : Config),
      cfg.useWebSearch.getD false = false →
      generate_response env q c cfg =
        (env.chatCompletion (cfg.model.getD "gpt-4o-mini")
          [("system",
            pyReplace (pyReplace (cfg.prompt.getD "You are a helpful assistant.")
              "{context}" c) "{query}" q),
           ("user", q)]
          (cfg.temperature.getD 0.7), [PCall.chat]))
  ∧ (∀ (tmpl q : String),
      frontendPrompt (some tmpl) "" q =
        jsReplaceFirst (jsOr (some tmpl) "You are a helpful assistant.") "{query}" q) := by
  constructor
  · intro env q c cfg h
    unfold generate_response backendSystemPrompt
    simp [h]
  · intro tmpl q
    simp [frontendPrompt]

/-- C5 counterexample: with an empty context the frontend leaves the literal
context token in place — the prompt is NOT the template with the token
substituted by the empty string, so the claim as stated fails on the
frontend executor. -/
theorem prompt_substitution_counterexample :
    frontendPrompt (some "Use {context} here") "" "hi" = "Use {context} here"
  ∧ jsReplaceFirst "Use {context} here" "{context}" "" = "Use  here"
  ∧ frontendPrompt (some "Use {context} here") "" "hi" ≠
      jsReplaceFirst "Use {context} here" "{context}" "" := by
  refine ⟨by decide, by decide, by decide⟩

/-- C5 witness: the backend substitution applied at a concrete template,
query and (empty) context. -/
theorem prompt_substitution_witness :
    generate_response envOk "q" "" llmCfgC5 =
      (envOk.chatCompletion (llmCfgC5.model.getD "gpt-4o-mini")
        [("system",
          pyReplace (pyReplace (llmCfgC5.prompt.getD "You are a helpful assistant.")
            "{context}" "") "{query}" "q"),
         ("user", "q")]
        (llmCfgC5.temperature.getD 0.7), [PCall.chat]) :=
  prompt_substitution.1 envOk "q" "" llmCfgC5 rfl

/- ### Claim C6 -/

/-- C6: when the graph contains no knowledge-base node, the backend engine
never calls the embedding provider or the vector store, and whenever it
returns a result the metadata records `context_used = false` (the context is
the empty string). -/
theorem execute_no_knowledge_base :
    ∀ (env : Env) (wf : Workflow) (q sid : String),
      (∀ n ∈ wf.nodes, n.type ≠ "knowledgeBase") →
      PCall.embed ∉ (WorkflowEngine.execute env wf q sid).2
    ∧ PCall.vectorQuery ∉ (WorkflowEngine.execute env wf q sid).2
    ∧ ∀ res, (WorkflowEngine.execute env wf q sid).1 = Except.ok res →
        res.metadata.context_used = false := by
  intro env wf q sid h
  have hkb : find_node_by_type wf.nodes "knowledgeBase" = none := by
    apply List.find?_eq_none.mpr
    intro x hx
    simp [h x hx]
  simp only [WorkflowEngine.execute, hkb]
  cases hllm : find_node_by_type wf.nodes "llmEngine" with
  | none => simp
  | some llm =>
    obtain ⟨h1, h2⟩ := generate_response_no_retrieval env q "" llm.config
    cases hg : generate_response env q "" llm.config with
    | mk r calls' =>
      rw [hg] at h1 h2
      simp only [hg, List.nil_append]
      cases r with
      | error e => exact ⟨by simpa using h1, by simpa using h2, by simp⟩
      | ok resp =>
        refine ⟨by simpa using h1, by simpa using h2, ?_⟩
        intro res hres
        simp only [Except.ok.injEq] at hres
        rw [← hres]
        rfl

/-- C6 witness: the no-knowledge-base properties evaluated on the LLM-only
graph under the all-success environment. -/
theorem execute_no_knowledge_base_witness :
    PCall.embed ∉ (WorkflowEngine.execute envOk gLLMOnly "q" "s1").2
  ∧ PCall.vectorQuery ∉ (WorkflowEngine.execute envOk gLLMOnly "q" "s1").2
  ∧ ({ response := "the answer", metadata := { context_used := false } } :
      ExecResult).metadata.context_used = false :=
  ⟨(execute_no_knowledge_base envOk gLLMOnly "q" "s1" (by decide)).1,
   (execute_no_knowledge_base envOk gLLMOnly "q" "s1" (by decide)).2.1,
   (execute_no_knowledge_base envOk gLLMOnly "q" "s1" (by decide)).2.2
     { response := "the answer", metadata := { context_used := false } } (by decide)⟩

/- ### Claim C7 -/

/-- C7 (amended): when the graph has a knowledge-base node and the embedding
provider or the vector store fails during context resolution, the failure is
NOT recovered: `execute` fails with exactly that error and no language-model
call is made (the call log stops at the failing retrieval step).  No
"mandatory" flag exists in any node configuration. -/
theorem execute_retrieval_failure_fatal :
    ∀ (env : Env) (wf : Workflow) (q sid : String) (k : WNode),
      find_node_by_type wf.nodes "knowledgeBase" = some k →
      (∀ e, env.embed q = Except.error e →
        WorkflowEngine.execute env wf q sid = (Except.error e, [PCall.embed]))
    ∧ (∀ emb e, env.embed q = Except.ok emb →
        env.vquery ("stack_" ++ sid) emb 3 = Except.error e →
        WorkflowEngine.execute env wf q sid =
          (Except.error e, [PCall.embed, PCall.vectorQuery])) := by
  intro env wf q sid k hkb
  constructor
  · intro e he
    simp only [WorkflowEngine.execute, hkb, retrieve_context, he]
  · intro emb e he hv
    simp only [WorkflowEngine.execute, hkb, retrieve_context, he, hv]

/-- C7 counterexample: with a knowledge-base node present (and no mandatory
marking anywhere), an embedding failure makes the whole execution fail — it
does not complete successfully with `context_used = false` as the claim
states. -/
theorem execute_retrieval_failure_fatal_counterexample :
    WorkflowEngine.execute envEmbedFail gKB "q" "s1" =
      (Except.error "embedding failed", [PCall.embed]) := by
  decide

/-- C7 witness: the amended claim applied to the concrete failing
environments (embedding failure and vector-store failure). -/
theorem execute_retrieval_failure_fatal_witness :
    WorkflowEngine.execute envEmbedFail gKB "q2" "s1" =
      (Except.error "embedding failed", [PCall.embed])
  ∧ WorkflowEngine.execute envVectorFail gKB "q2" "s1" =
      (Except.error "vector store down", [PCall.embed, PCall.vectorQuery]) :=
  ⟨(execute_retrieval_failure_fatal envEmbedFail gKB "q2" "s1" kbNode (by decide)).1
      "embedding failed" rfl,
   (execute_retrieval_failure_fatal envVectorFail gKB "q2" "s1" kbNode (by decide)).2
      [1, 2, 3] "vector store down" rfl rfl⟩

/- ### Claim C8 -/

/-- C8 (amended): `perform_web_search` extracts the snippets of at most the
first three organic results and joins them with newlines; an empty
organic-results list yields the empty string; but a search whose HTTP
request raises propagates its error out of `generate_response`, aborting the
generation with no chat call — there is no local recovery. -/
theorem web_search_snippets :
    (∀ (env : Env) (q : String) (k : Option String) (r : SearchResponse),
      env.httpSearch q k = Except.ok r →
      perform_web_search env q k =
        (Except.ok (joinWith "\n"
          ((r.organic_results.take 3).map (fun it => it.snippet.getD ""))),
         [PCall.webSearch])
      ∧ (r.organic_results.take 3).length ≤ 3)
  ∧ (∀ (env : Env) (q : String) (k : Option String),
      env.httpSearch q k = Except.ok { organic_results := [] } →
      perform_web_search env q k = (Except.ok "", [PCall.webSearch]))
  ∧ (∀ (env : Env) (q c : String) (cfg : Config) (e : String),
      cfg.useWebSearch.getD false = true →
      env.httpSearch q cfg.webSearchApiKey = Except.error e →
      generate_response env q c cfg = (Except.error e, [PCall.webSearch])) := by
  refine ⟨?_, ?_, ?_⟩
  · intro env q k r h
    unfold perform_web_search
    rw [h]
    exact ⟨rfl, List.length_take_le 3 r.organic_results⟩
  · intro env q k h
    unfold perform_web_search
    rw [h]
    rfl
  · intro env q c cfg e hws hsearch
    unfold generate_response perform_web_search
    simp only [hws, if_true, hsearch]

/-- C8 counterexample: a failing web-search HTTP request aborts the whole
generation with the search error (no chat call is made, no empty snippet is
substituted) — the claim that a failed search never aborts generation is
false. -/
theorem web_search_snippets_counterexample :
    generate_response envSearchFail "q" "" cfgWS =
      (Except.error "network error", [PCall.webSearch])
  ∧ (perform_web_search envSearchFail "q" cfgWS.webSearchApiKey).1 =
      Except.error "network error" := by
  constructor
  · decide
  · decide

/-- C8 witness: the amended claim applied at concrete environments — an
empty organic list yields the empty string, and the failing environment
aborts generation. -/
theorem web_search_snippets_witness :
    perform_web_search envOk "q" (some "k") = (Except.ok "", [PCall.webSearch])
  ∧ generate_response envSearchFail "q2" "" cfgWS =
      (Except.error "network error", [PCall.webSearch]) :=
  ⟨web_search_snippets.2.1 envOk "q" (some "k") rfl,
   web_search_snippets.2.2 envSearchFail "q2" "" cfgWS "network error" rfl rfl⟩

/- ### Claim C9 -/

/-- C9: the chat flow persists chat messages only — no execution has any
code path that writes an `execution_logs` row, for any workflow and input
and in every terminal state, so no execution trace is ever produced or
persisted (the schema and API documentation promise one). -/
theorem sendMessage_writes_no_execution_log :
    ∀ (wf : Workflow) (input : String),
      (sendMessage wf input).filter isExecutionLogWrite = [] := by
  intro wf input
  unfold sendMessage
  by_cases h : input.trim = ""
  · simp [h]
  · simp only [h, if_false]
    cases executeWorkflow wf input.trim <;>
      simp [isExecutionLogWrite]

/- ### Claim C10 -/

/-- C10: the frontend executor fails with exactly the error
`"LLM Engine component is required"` when (and only when) the workflow has
no `llmEngine` node; whenever an `llmEngine` node is present it returns a
non-empty response string, even if the `userQuery` or `output` nodes are
absent. -/
theorem executeWorkflow_llm_required :
    ∀ (wf : Workflow) (q : String),
      ((∀ n ∈ wf.nodes, n.type ≠ "llmEngine") →
        executeWorkflow wf q = Except.error "LLM Engine component is required")
    ∧ (∀ n ∈ wf.nodes, n.type = "llmEngine" →
        ∃ s, executeWorkflow wf q = Except.ok s ∧ s ≠ "") := by
  intro wf q
  constructor
  · intro h
    have hfind : wf.nodes.find? (fun n => n.type == "llmEngine") = none := by
      apply List.find?_eq_none.mpr
      intro x hx
      simp [h x hx]
    simp only [executeWorkflow, hfind]
  · intro n hn hty
    cases hfind : wf.nodes.find? (fun n => n.type == "llmEngine") with
    | none =>
      exact absurd (by simpa using List.find?_eq_none.mp hfind n hn) (by simp [hty])
    | some llm =>
      refine ⟨simulatedResponse q llm.config
        (frontendContext (wf.nodes.find? (fun n => n.type == "knowledgeBase"))), ?_, ?_⟩
      · simp only [executeWorkflow, hfind]
      · exact simulatedResponse_ne_empty _ _ _

/-- C10 witness: the error at a graph with no LLM node and the non-empty
response at the LLM-only graph. -/
theorem executeWorkflow_llm_required_witness :
    executeWorkflow gNoLLM "hi" = Except.error "LLM Engine component is required"
  ∧ ∃ s, executeWorkflow gLLMOnly "hi" = Except.ok s ∧ s ≠ "" :=
  ⟨(executeWorkflow_llm_required gNoLLM "hi").1 (by decide),
   (executeWorkflow_llm_required gLLMOnly "hi").2 llmNodeNoWS
     (List.mem_cons_self llmNodeNoWS []) rfl⟩

end GenAIStack
